import Mathlib

/-!
Verification of the S3 bucket lifecycle configuration resource binding.

The development shallowly embeds the resource reconciler
(create / read / update / delete of `aws_s3_bucket_lifecycle_configuration`),
the rule mapper (expand / flatten between the user configuration shape and
the remote API shape), the resource identity codec, and the S3 tag sync
helpers. Remote calls are modelled by passing the remote responses in as
explicit arguments; the embedding then computes which remote requests the
operation issues and what it returns.
-/

namespace S3Lifecycle

/-- Decidable equality for `Except`, used to evaluate the embedding on
concrete inputs. -/
instance {ε α : Type _} [DecidableEq ε] [DecidableEq α] :
    DecidableEq (Except ε α)
  | .ok x, .ok y => decidable_of_iff (x = y) (by simp)
  | .ok _, .error _ => isFalse (by simp)
  | .error _, .ok _ => isFalse (by simp)
  | .error e, .error f => decidable_of_iff (e = f) (by simp)

/-- Error codes of the remote storage API as distinguished by the resource
code (`tfawserr.ErrCodeEquals` / `awsbase.IsAWSErr` comparisons). -/
inductive AwsErrCode where
  | noSuchLifecycleConfiguration
  | noSuchBucket
  | noSuchTagSet
  | accessDenied
  | other (msg : String)
deriving DecidableEq, Repr

/-- Test used by Read and Delete:
`tfawserr.ErrCodeEquals(err, ErrCodeNoSuchLifecycleConfiguration, s3.ErrCodeNoSuchBucket)`. -/
def isNotFoundCode (e : AwsErrCode) : Bool :=
  match e with
  | .noSuchLifecycleConfiguration => true
  | .noSuchBucket => true
  | _ => false

/-! ## Rule mapper data model

The user-facing rule block, following the resource schema in
`ResourceBucketLifecycleConfiguration`: Terraform string fields default to
the empty string and plain int fields default to 0 when unset, nullable
ints and single-element sub-blocks are `Option`. The deprecated top-level
`prefix` field is named `pfx` here (`prefix` is reserved in Lean). -/

/-- Expiration sub-block: `date`, `days` (0 when unset, as returned by the
API) and `expired_object_delete_marker`; the three are mutually
exclusive. -/
structure LifecycleExpiration where
  date : Option String
  days : Int
  expiredObjectDeleteMarker : Bool
deriving DecidableEq, Repr

/-- Number of expiration fields that are set (non-default). -/
def expirationSetCount (e : LifecycleExpiration) : Nat :=
  (if e.date.isSome then 1 else 0) +
    (if e.days ≠ 0 then 1 else 0) +
    (if e.expiredObjectDeleteMarker then 1 else 0)

/-- The `filter.and` sub-block: plain schema fields, so string empty / int 0
mean unset. -/
structure LifecycleRuleAndOperator where
  objectSizeGreaterThan : Int
  objectSizeLessThan : Int
  pfx : String
  tags : List (String × String)
deriving DecidableEq, Repr

/-- Number of `filter.and` sub-fields that are set. -/
def andSetCount (a : LifecycleRuleAndOperator) : Nat :=
  (if a.objectSizeGreaterThan ≠ 0 then 1 else 0) +
    (if a.objectSizeLessThan ≠ 0 then 1 else 0) +
    (if a.pfx ≠ "" then 1 else 0) +
    (if a.tags ≠ [] then 1 else 0)

/-- The user-facing `filter` block: `and` sub-block, nullable object size
bounds, `prefix` (string, empty when unset) and a single `tag`. -/
structure LifecycleRuleFilter where
  andOp : Option LifecycleRuleAndOperator
  objectSizeGreaterThan : Option Int
  objectSizeLessThan : Option Int
  pfx : String
  tag : Option (String × String)
deriving DecidableEq, Repr

/-- A `transition` block: one of `date` / `days`, plus a storage class. -/
structure Transition where
  date : Option String
  days : Option Int
  storageClass : String
deriving DecidableEq, Repr

/-- A `noncurrent_version_transition` block. -/
structure NoncurrentVersionTransition where
  newerNoncurrentVersions : Option Int
  noncurrentDays : Int
  storageClass : String
deriving DecidableEq, Repr

/-- The `noncurrent_version_expiration` block. -/
structure NoncurrentVersionExpiration where
  newerNoncurrentVersions : Option Int
  noncurrentDays : Int
deriving DecidableEq, Repr

/-- A user-facing lifecycle rule block, fields as in the resource schema.
`pfx` is the deprecated top-level `prefix`. -/
structure LifecycleRule where
  id : String
  status : String
  filter : Option LifecycleRuleFilter
  pfx : String
  expiration : Option LifecycleExpiration
  transitions : List Transition
  noncurrentVersionTransitions : List NoncurrentVersionTransition
  noncurrentVersionExpiration : Option NoncurrentVersionExpiration
  abortIncompleteMultipartUpload : Option Int
deriving DecidableEq, Repr

/-- The remote API rule filter: a one-of shape. In the `andOp` member the
size bounds are present-or-absent (`Option`), matching the API wire shape
where absent and zero are distinguishable. -/
inductive APIFilter where
  | pfx (p : String)
  | tag (key value : String)
  | sizeGT (n : Int)
  | sizeLT (n : Int)
  | andOp (p : String) (tags : List (String × String))
      (sizeGT sizeLT : Option Int)
deriving DecidableEq, Repr

/-- A remote API lifecycle rule, as carried in Put / Get lifecycle
configuration payloads. -/
structure APIRule where
  id : String
  status : String
  filter : APIFilter
  expiration : Option LifecycleExpiration
  transitions : List Transition
  noncurrentVersionTransitions : List NoncurrentVersionTransition
  noncurrentVersionExpiration : Option NoncurrentVersionExpiration
  abortIncompleteMultipartUpload : Option Int
deriving DecidableEq, Repr

/-- A validation error carrying the id of the offending rule. -/
structure LifecycleValidationErr where
  ruleId : String
  msg : String
deriving DecidableEq, Repr

/-- Modelled from the spec: the filter part of `ExpandLifecycleRules`
(the function itself is not under src/). Enforces mutual exclusion among
the filter sub-blocks, requires at least two set sub-fields inside
`filter.and`, requires object size bounds to be non-negative with the
lower bound below the upper bound when both are present, and serializes a
rule with an empty filter and empty deprecated top-level prefix as a
filter with an empty prefix. Errors name the offending rule by id. -/
def expandFilter (ruleId : String) (topPfx : String)
    (filter : Option LifecycleRuleFilter) :
    Except LifecycleValidationErr APIFilter :=
  match filter with
  | none => .ok (.pfx topPfx)
  | some f =>
    if topPfx ≠ "" then
      .error ⟨ruleId, "conflict between deprecated top-level field and filter"⟩
    else
      match f.andOp, f.tag, f.objectSizeGreaterThan, f.objectSizeLessThan with
      | some a, none, none, none =>
        if f.pfx ≠ "" then
          .error ⟨ruleId, "conflicting filter predicates"⟩
        else if andSetCount a < 2 then
          .error ⟨ruleId, "filter and block requires at least two set fields"⟩
        else
          .ok (.andOp a.pfx a.tags
            (if a.objectSizeGreaterThan = 0 then none
              else some a.objectSizeGreaterThan)
            (if a.objectSizeLessThan = 0 then none
              else some a.objectSizeLessThan))
      | none, some t, none, none =>
        if f.pfx ≠ "" then
          .error ⟨ruleId, "conflicting filter predicates"⟩
        else
          .ok (.tag t.1 t.2)
      | none, none, some g, some l =>
        if f.pfx ≠ "" then
          .error ⟨ruleId, "conflicting filter predicates"⟩
        else if 0 ≤ g ∧ g < l then
          .ok (.andOp "" [] (some g) (some l))
        else
          .error ⟨ruleId, "invalid object size bounds"⟩
      | none, none, some g, none =>
        if f.pfx ≠ "" then
          .error ⟨ruleId, "conflicting filter predicates"⟩
        else if 0 ≤ g then
          .ok (.sizeGT g)
        else
          .error ⟨ruleId, "invalid object size bounds"⟩
      | none, none, none, some l =>
        if f.pfx ≠ "" then
          .error ⟨ruleId, "conflicting filter predicates"⟩
        else if 0 ≤ l then
          .ok (.sizeLT l)
        else
          .error ⟨ruleId, "invalid object size bounds"⟩
      | none, none, none, none =>
        .ok (.pfx f.pfx)
      | _, _, _, _ =>
        .error ⟨ruleId, "conflicting filter predicates"⟩

/-- Modelled from the spec: the expiration part of `ExpandLifecycleRules`
(not under src/). Rejects an expiration block that sets more than one of
date, days and expired-object-delete-marker. -/
def expandExpiration (ruleId : String) (e? : Option LifecycleExpiration) :
    Except LifecycleValidationErr (Option LifecycleExpiration) :=
  match e? with
  | none => .ok none
  | some e =>
    if expirationSetCount e > 1 then
      .error ⟨ruleId, "expiration fields are mutually exclusive"⟩
    else
      .ok (some e)

/-- Modelled from the spec: the per-rule part of `ExpandLifecycleRules`
(not under src/). Validates the expiration block, expands the filter, and
passes the remaining blocks through to the API shape. -/
def expandRule (r : LifecycleRule) : Except LifecycleValidationErr APIRule :=
  match expandExpiration r.id r.expiration with
  | .error e => .error e
  | .ok exp =>
    match expandFilter r.id r.pfx r.filter with
    | .error e => .error e
    | .ok fl =>
      .ok ⟨r.id, r.status, fl, exp, r.transitions,
        r.noncurrentVersionTransitions, r.noncurrentVersionExpiration,
        r.abortIncompleteMultipartUpload⟩

/-- Modelled from the spec: `ExpandLifecycleRules` (not under src/) maps
`expandRule` over the rule list, failing fast on the first invalid rule
with no partial payload. -/
def ExpandLifecycleRules :
    List LifecycleRule → Except LifecycleValidationErr (List APIRule)
  | [] => .ok []
  | r :: rest =>
    match expandRule r with
    | .error e => .error e
    | .ok a =>
      match ExpandLifecycleRules rest with
      | .error e => .error e
      | .ok as_ => .ok (a :: as_)

/-- Modelled from the spec: the filter part of `FlattenLifecycleRules`
(not under src/). Inverts `expandFilter` onto the user shape; an API
and-operator carrying only size bounds flattens onto the nullable
top-level size fields, any other and-operator flattens onto the user
`filter.and` block. -/
def flattenFilter (fl : APIFilter) : LifecycleRuleFilter :=
  match fl with
  | .pfx p => ⟨none, none, none, p, none⟩
  | .tag k v => ⟨none, none, none, "", some (k, v)⟩
  | .sizeGT n => ⟨none, some n, none, "", none⟩
  | .sizeLT n => ⟨none, none, some n, "", none⟩
  | .andOp p tags gt lt =>
    if p = "" ∧ tags = [] then
      ⟨none, gt, lt, "", none⟩
    else
      ⟨some ⟨gt.getD 0, lt.getD 0, p, tags⟩, none, none, "", none⟩

/-- Modelled from the spec: the per-rule part of `FlattenLifecycleRules`
(not under src/). The filter always lands in the `filter` block; the
deprecated top-level prefix is left empty. -/
def flattenRule (a : APIRule) : LifecycleRule :=
  ⟨a.id, a.status, some (flattenFilter a.filter), "", a.expiration,
    a.transitions, a.noncurrentVersionTransitions,
    a.noncurrentVersionExpiration, a.abortIncompleteMultipartUpload⟩

/-- Modelled from the spec: `FlattenLifecycleRules` (not under src/) maps
`flattenRule` over the API rule list. -/
def FlattenLifecycleRules (as_ : List APIRule) : List LifecycleRule :=
  as_.map flattenRule

/-! ## Filter denotation

Semantic content of a filter: which objects a rule applies to. Used to
state that flattening preserves the filter predicate even when the
structural shape moves. -/

/-- An object as seen by a lifecycle filter: key, size and tag set. -/
structure S3Object where
  key : String
  size : Int
  tags : List (String × String)

/-- String prefix test, on the underlying character lists. -/
def strHasPfx (p s : String) : Bool :=
  p.data.isPrefixOf s.data

/-- Whether every tag of `ts` is present on the object tag list. -/
def tagsSubset (ts objTags : List (String × String)) : Bool :=
  ts.all (fun t => objTags.contains t)

/-- Denotation of the user `filter.and` block (0 means no bound). -/
def matchesAndUser (a : LifecycleRuleAndOperator) (o : S3Object) : Bool :=
  strHasPfx a.pfx o.key && tagsSubset a.tags o.tags &&
    (a.objectSizeGreaterThan == 0 || decide (o.size > a.objectSizeGreaterThan)) &&
    (a.objectSizeLessThan == 0 || decide (o.size < a.objectSizeLessThan))

/-- Denotation of a filter block together with the deprecated top-level
prefix: the conjunction of its set predicates, with a missing filter
falling back to the top-level prefix. -/
def filterAppliesTo (topPfx : String) (filter : Option LifecycleRuleFilter)
    (o : S3Object) : Bool :=
  match filter with
  | none => strHasPfx topPfx o.key
  | some f =>
    match f.andOp with
    | some a => matchesAndUser a o
    | none =>
      strHasPfx f.pfx o.key &&
        (match f.tag with
         | none => true
         | some t => o.tags.contains t) &&
        (match f.objectSizeGreaterThan with
         | none => true
         | some g => decide (o.size > g)) &&
        (match f.objectSizeLessThan with
         | none => true
         | some l => decide (o.size < l))

/-- Denotation of a user rule: which objects it applies to. -/
def ruleAppliesTo (r : LifecycleRule) (o : S3Object) : Bool :=
  filterAppliesTo r.pfx r.filter o

/-- Semantic equivalence of a flattened rule with the original user rule:
all non-filter blocks are equal and the filter applies to exactly the same
objects. -/
def SemEqRule (rf orig : LifecycleRule) : Prop :=
  rf.id = orig.id ∧ rf.status = orig.status ∧
    rf.expiration = orig.expiration ∧
    rf.transitions = orig.transitions ∧
    rf.noncurrentVersionTransitions = orig.noncurrentVersionTransitions ∧
    rf.noncurrentVersionExpiration = orig.noncurrentVersionExpiration ∧
    rf.abortIncompleteMultipartUpload = orig.abortIncompleteMultipartUpload ∧
    ∀ o : S3Object, ruleAppliesTo rf o = ruleAppliesTo orig o

/-! ## Resource identity codec

Strings are modelled as character lists so that splitting on the reserved
separator is fully transparent. -/

/-- The reserved separator of the composite resource id. -/
def resourceIDSeparator : Char := ','

/-- Modelled from the spec: `CreateResourceID` (not under src/). Encodes
(bucket, optional owner account id) into one id string; when the owner id
is absent the id is the bare bucket name, otherwise the two parts joined
by the reserved separator. -/
def CreateResourceID (bucket expectedBucketOwner : List Char) : List Char :=
  if expectedBucketOwner = [] then bucket
  else bucket ++ resourceIDSeparator :: expectedBucketOwner

/-- Split a character list on every occurrence of the separator. -/
def splitOnSep : List Char → List (List Char)
  | [] => [[]]
  | c :: rest =>
    if c = resourceIDSeparator then
      [] :: splitOnSep rest
    else
      match splitOnSep rest with
      | [] => [[c]]
      | h :: t => (c :: h) :: t

/-- Modelled from the spec: `ParseResourceID` (not under src/). One
separator-free part decodes to (bucket, empty owner id); two parts decode
to (bucket, owner id); anything else is a format error. -/
def ParseResourceID (id : List Char) :
    Except String (List Char × List Char) :=
  match splitOnSep id with
  | [b] => .ok (b, [])
  | [b, o] => .ok (b, o)
  | _ => .error "unexpected format of id, expected BUCKET or BUCKET,EXPECTED_BUCKET_OWNER"

/-- A valid bucket name: non-empty, at most 63 characters, and free of the
reserved separator. -/
def ValidBucketName (b : List Char) : Prop :=
  b ≠ [] ∧ b.length ≤ 63 ∧ resourceIDSeparator ∉ b

/-- A valid owner account id: absent, or exactly 12 decimal digits. -/
def ValidOwnerId (o : List Char) : Prop :=
  o = [] ∨ (o.length = 12 ∧ ∀ c ∈ o, c.isDigit)

/-! ## Reconciler: Read with stabilization

`resourceBucketLifecycleConfigurationRead` runs the remote get inside
`resource.RetryContext` with the steady-state timeout: a not-found-class
error on a new resource is retryable, any other error is non-retryable,
and a successful get is retryable until it deeply equals the immediately
preceding get. The sequence of remote responses available before the
timeout elapses is passed in as a list; exhausting it models the timeout,
after which the code issues one final unconditional get. -/

/-- A remote get-lifecycle-configuration response: rules, or an error. -/
abbrev GetOutput := List APIRule

/-- Outcome of the `resource.RetryContext` stabilization loop. -/
inductive RetryOutcome where
  | success (out : GetOutput)
  | nonRetryable (e : AwsErrCode)
  | timedOut
deriving DecidableEq, Repr

/-- The stabilization loop body of the Read operation: `last` is the
previously observed output (`lastOutput`), `reads` the remote responses
remaining before the steady timeout elapses. -/
def stabilizeLoop (isNew : Bool) (last : Option GetOutput) :
    List (Except AwsErrCode GetOutput) → RetryOutcome
  | [] => .timedOut
  | r :: rest =>
    match r with
    | .error e =>
      if isNew && isNotFoundCode e then
        stabilizeLoop isNew last rest
      else
        .nonRetryable e
    | .ok out =>
      match last with
      | none => stabilizeLoop isNew (some out) rest
      | some l =>
        if l = out then .success out
        else stabilizeLoop isNew (some out) rest

/-- Result of the Read operation: state populated from a stable output,
identity cleared with no error, or a reported error. -/
inductive ReadResult where
  | ok (out : GetOutput)
  | removed
  | error (e : AwsErrCode)
deriving DecidableEq, Repr

/-- The post-loop handling of Read: a not-found-class error on a resource
that is not new clears the tracked identity and reports no error; any
other error is reported; a successful output populates the state. -/
def readPostProcess (isNew : Bool) (r : Except AwsErrCode GetOutput) :
    ReadResult :=
  match r with
  | .error e =>
    if !isNew && isNotFoundCode e then .removed
    else .error e
  | .ok out => .ok out

/-- The Read operation after identity parsing: run the stabilization loop;
on timeout fall back to the final unconditional read `finalRead`; then
post-process. -/
def resourceBucketLifecycleConfigurationRead (isNew : Bool)
    (reads : List (Except AwsErrCode GetOutput))
    (finalRead : Except AwsErrCode GetOutput) : ReadResult :=
  match stabilizeLoop isNew none reads with
  | .success out => readPostProcess isNew (.ok out)
  | .nonRetryable e => readPostProcess isNew (.error e)
  | .timedOut => readPostProcess isNew finalRead

/-! ## Reconciler: Delete -/

/-- Result of the Delete operation. -/
inductive DeleteOutcome where
  | success
  | failure (e : AwsErrCode)
  | parseFailure
deriving DecidableEq, Repr

/-- The Delete operation: parse the identity, issue the remote delete
(`remote` is its result, `none` meaning success), treat a not-found-class
error as success, report any other error. -/
def resourceBucketLifecycleConfigurationDelete (id : List Char)
    (remote : Option AwsErrCode) : DeleteOutcome :=
  match ParseResourceID id with
  | .error _ => .parseFailure
  | .ok _ =>
    match remote with
    | some e => if isNotFoundCode e then .success else .failure e
    | none => .success

/-! ## Reconciler: Create and Update request traces

For the fail-fast property the embedding records which remote requests the
operation issues before returning. Only the put request matters here; the
subsequent stabilization wait and re-read are covered by the Read model. -/

/-- A remote write request issued by Create or Update. -/
inductive RemoteCall where
  | putLifecycleConfiguration (rules : List APIRule)
deriving DecidableEq, Repr

/-- An operation-level error: identity format error, rule validation
error, or remote fault. -/
inductive OpErr where
  | parse
  | validation (e : LifecycleValidationErr)
  | remote (e : AwsErrCode)
deriving DecidableEq, Repr

/-- The Create operation up to its put request: expand the rule blocks,
returning the validation error with no remote request on failure,
otherwise issue the put (`putResult` is its outcome after the
bucket-existence retry). -/
def resourceBucketLifecycleConfigurationCreate
    (ruleBlocks : List LifecycleRule) (putResult : Option AwsErrCode) :
    List RemoteCall × Except OpErr Unit :=
  match ExpandLifecycleRules ruleBlocks with
  | .error e => ([], .error (.validation e))
  | .ok rules =>
    ([.putLifecycleConfiguration rules],
      match putResult with
      | some e => .error (.remote e)
      | none => .ok ())

/-- The Update operation up to its put request: parse the identity, expand
the rule blocks, returning the validation error with no remote request on
failure, otherwise issue the full-replace put. -/
def resourceBucketLifecycleConfigurationUpdate (id : List Char)
    (ruleBlocks : List LifecycleRule) (putResult : Option AwsErrCode) :
    List RemoteCall × Except OpErr Unit :=
  match ParseResourceID id with
  | .error _ => ([], .error .parse)
  | .ok _ =>
    match ExpandLifecycleRules ruleBlocks with
    | .error e => ([], .error (.validation e))
    | .ok rules =>
      ([.putLifecycleConfiguration rules],
        match putResult with
        | some e => .error (.remote e)
        | none => .ok ())

/-! ## Tag sync

`KeyValueTags` is an association list from tag key to tag value. The
helper methods of the keyvaluetags package are not under src/ and are
modelled from the spec. -/

/-- A tag set: association list from key to value. -/
abbrev KeyValueTags := List (String × String)

/-- Whether a tag key is provider/system managed (the ignored AWS key
space). -/
def isAwsTagKey (k : String) : Bool :=
  strHasPfx "aws:" k

/-- Modelled from the spec: `KeyValueTags.IgnoreAws` (not under src/)
keeps the user-visible tags, dropping provider-managed keys. -/
def tagsIgnoreAws (tags : KeyValueTags) : KeyValueTags :=
  tags.filter (fun t => !isAwsTagKey t.1)

/-- Whether the tag set contains the key. -/
def tagsContainsKey (tags : KeyValueTags) (k : String) : Bool :=
  tags.any (fun t => t.1 == k)

/-- Modelled from the spec: `KeyValueTags.Removed` (not under src/)
returns the tags of the receiver whose key is absent from the
argument. -/
def tagsRemoved (tags arg : KeyValueTags) : KeyValueTags :=
  tags.filter (fun t => !tagsContainsKey arg t.1)

/-- Modelled from the spec: `KeyValueTags.Merge` (not under src/) merges
the argument into the receiver, the argument winning on key clashes. -/
def tagsMerge (tags arg : KeyValueTags) : KeyValueTags :=
  tagsRemoved tags arg ++ arg

/-- A remote tag write request issued by an update-tags helper. -/
inductive TagWrite where
  | put (ts : KeyValueTags)
  | deleteAll
  | noop
deriving DecidableEq, Repr

/-- `S3BucketListTags`: the special no-tag-set error yields an empty tag
set with no error; any other error propagates; otherwise the remote tag
set is returned. `resp` is the remote get-bucket-tagging response. -/
def S3BucketListTags (resp : Except AwsErrCode KeyValueTags) :
    Except AwsErrCode KeyValueTags :=
  match resp with
  | .error AwsErrCode.noSuchTagSet => .ok []
  | .error e => .error e
  | .ok ts => .ok ts

/-- `S3ObjectListTags`: any error of the remote get-object-tagging call
propagates unchanged; otherwise the remote tag set is returned. -/
def S3ObjectListTags (resp : Except AwsErrCode KeyValueTags) :
    Except AwsErrCode KeyValueTags :=
  match resp with
  | .error e => .error e
  | .ok ts => .ok ts

/-- `S3BucketUpdateTags`: list the current remote tags, compute the system
tags as the stored tags minus the user-visible ones, write the union of
the new user tags and the system tags when non-empty, otherwise delete all
tags when old tags existed, otherwise issue no write. -/
def S3BucketUpdateTags (oldTags newTags : KeyValueTags)
    (listResp : Except AwsErrCode KeyValueTags) :
    Except AwsErrCode TagWrite :=
  match S3BucketListTags listResp with
  | .error e => .error e
  | .ok allTags =>
    let sysTags := tagsRemoved allTags (tagsIgnoreAws allTags)
    if newTags.length + sysTags.length > 0 then
      .ok (.put (tagsMerge newTags sysTags))
    else if oldTags.length > 0 ∧ sysTags.length = 0 then
      .ok .deleteAll
    else
      .ok .noop

/-- `S3ObjectUpdateTags`: when the new tag set is non-empty, write it with
provider-managed keys stripped; otherwise, when old tags existed, issue an
unconditional delete-all-tags request; otherwise no write. It never lists
the existing remote tags. -/
def S3ObjectUpdateTags (oldTags newTags : KeyValueTags) : TagWrite :=
  if newTags.length > 0 then .put (tagsIgnoreAws newTags)
  else if oldTags.length > 0 then .deleteAll
  else .noop

/-- A concrete API rule (id "expire-old", enabled, expire after 30 days,
applying to all objects), used to evaluate the embedding. -/
def sampleRule : APIRule :=
  ⟨"expire-old", "Enabled", .pfx "", some ⟨none, 30, false⟩, [], [], none, none⟩

/-- A concrete user rule using the deprecated top-level prefix field. -/
def userRulePfx : LifecycleRule :=
  ⟨"r1", "Enabled", none, "logs/", some ⟨none, 30, false⟩, [], [], none, none⟩

/-- A concrete user rule with a tag filter, transitions and noncurrent
version blocks. -/
def userRuleTag : LifecycleRule :=
  ⟨"r2", "Disabled", some ⟨none, none, none, "", some ("k", "v")⟩, "", none,
    [⟨none, some 7, "GLACIER"⟩], [⟨some 3, 10, "DEEP_ARCHIVE"⟩],
    some ⟨none, 5⟩, some 7⟩

/-- The API rule produced by expanding `userRulePfx`. -/
def apiRulePfx : APIRule :=
  ⟨"r1", "Enabled", .pfx "logs/", some ⟨none, 30, false⟩, [], [], none, none⟩

/-- The API rule produced by expanding `userRuleTag`. -/
def apiRuleTag : APIRule :=
  ⟨"r2", "Disabled", .tag "k" "v", none, [⟨none, some 7, "GLACIER"⟩],
    [⟨some 3, 10, "DEEP_ARCHIVE"⟩], some ⟨none, 5⟩, some 7⟩

/-- A concrete rule block violating expiration mutual exclusion: both an
expiration date and expiration days are set. -/
def invalidExpirationRule : LifecycleRule :=
  ⟨"bad-rule", "Enabled", none, "",
    some ⟨some "2024-01-01T00:00:00Z", 30, false⟩, [], [], none, none⟩

/-! ## Theorems -/

/-- Splitting a separator-free character list yields that list alone. -/
lemma splitOnSep_no_sep (b : List Char) (h : resourceIDSeparator ∉ b) :
    splitOnSep b = [b] := by
  induction b with
  | nil => rfl
  | cons c rest ih =>
    have hc : c ≠ resourceIDSeparator := fun hc => h (hc ▸ List.mem_cons_self c rest)
    have hr : resourceIDSeparator ∉ rest := fun hm => h (List.mem_cons_of_mem c hm)
    simp only [splitOnSep, if_neg hc, ih hr]

/-- Splitting a list built from two separator-free parts joined by the
separator yields exactly those two parts. -/
lemma splitOnSep_append (b o : List Char) (hb : resourceIDSeparator ∉ b)
    (ho : resourceIDSeparator ∉ o) :
    splitOnSep (b ++ resourceIDSeparator :: o) = [b, o] := by
  induction b with
  | nil => simp [splitOnSep, splitOnSep_no_sep o ho]
  | cons c rest ih =>
    have hc : c ≠ resourceIDSeparator := fun hc => hb (hc ▸ List.mem_cons_self c rest)
    have hr : resourceIDSeparator ∉ rest := fun hm => hb (List.mem_cons_of_mem c hm)
    simp only [List.cons_append, splitOnSep, if_neg hc, List.append_eq, ih hr]

/-- A decimal digit is never the reserved separator. -/
lemma sep_not_digit {c : Char} (h : c.isDigit) : c ≠ resourceIDSeparator := by
  intro hc
  subst hc
  simp [Char.isDigit, resourceIDSeparator] at h

/-- C5: for every valid bucket name and owner account id (including the
absent owner id), decoding the identity produced by encoding returns
exactly the same pair with no error; an absent owner id decodes to the
empty string rather than an error. -/
theorem identity_codec_roundtrip (b o : List Char)
    (hb : ValidBucketName b) (ho : ValidOwnerId o) :
    ParseResourceID (CreateResourceID b o) = .ok (b, o) := by
  obtain ⟨-, -, hbs⟩ := hb
  rcases ho with ho | ⟨hlen, hdig⟩
  · subst ho
    simp [CreateResourceID, ParseResourceID, splitOnSep_no_sep b hbs]
  · have hne : o ≠ [] := by
      intro h
      rw [h] at hlen
      simp at hlen
    have hos : resourceIDSeparator ∉ o := by
      intro hm
      exact sep_not_digit (hdig _ hm) rfl
    simp [CreateResourceID, if_neg hne, ParseResourceID,
      splitOnSep_append b o hbs hos]

/-- Witness for C5 at bucket "b", owner ids "" and "123456789012". -/
theorem identity_codec_roundtrip_witness :
    ParseResourceID (CreateResourceID ['b'] []) = .ok (['b'], []) ∧
      ParseResourceID
          (CreateResourceID ['b']
            ['1', '2', '3', '4', '5', '6', '7', '8', '9', '0', '1', '2']) =
        .ok (['b'], ['1', '2', '3', '4', '5', '6', '7', '8', '9', '0', '1', '2']) :=
  ⟨identity_codec_roundtrip ['b'] [] ⟨by decide, by decide, by decide⟩
      (Or.inl rfl),
    identity_codec_roundtrip ['b'] _ ⟨by decide, by decide, by decide⟩
      (Or.inr ⟨by decide, by decide⟩)⟩

/-- C6: Delete is idempotent with respect to absence: for every identity
that parses, a not-found-class remote error yields success, a successful
remote delete yields success, and any other remote error is reported as a
failure. -/
theorem delete_idempotent_absence (id : List Char) (remote : Option AwsErrCode)
    (hid : ∃ p, ParseResourceID id = .ok p) :
    (∀ e, remote = some e → isNotFoundCode e = true →
        resourceBucketLifecycleConfigurationDelete id remote = .success) ∧
      (remote = none →
        resourceBucketLifecycleConfigurationDelete id remote = .success) ∧
      (∀ e, remote = some e → isNotFoundCode e = false →
        resourceBucketLifecycleConfigurationDelete id remote = .failure e) := by
  obtain ⟨p, hp⟩ := hid
  refine ⟨?_, ?_, ?_⟩
  · intro e he hnf
    subst he
    simp [resourceBucketLifecycleConfigurationDelete, hp, hnf]
  · intro he
    subst he
    simp [resourceBucketLifecycleConfigurationDelete, hp]
  · intro e he hnf
    subst he
    simp [resourceBucketLifecycleConfigurationDelete, hp, hnf]

/-- Witness for C6 at identity "b": delete succeeds when the remote
reports no-such-bucket, no-such-lifecycle-configuration or plain success,
and fails on an access-denied fault. -/
theorem delete_idempotent_absence_witness :
    resourceBucketLifecycleConfigurationDelete ['b'] (some .noSuchBucket) = .success ∧
      resourceBucketLifecycleConfigurationDelete ['b']
          (some .noSuchLifecycleConfiguration) = .success ∧
      resourceBucketLifecycleConfigurationDelete ['b'] none = .success ∧
      resourceBucketLifecycleConfigurationDelete ['b'] (some .accessDenied) =
        .failure .accessDenied :=
  ⟨(delete_idempotent_absence ['b'] _ ⟨_, rfl⟩).1 _ rfl rfl,
    (delete_idempotent_absence ['b'] _ ⟨_, rfl⟩).1 _ rfl rfl,
    (delete_idempotent_absence ['b'] _ ⟨_, rfl⟩).2.1 rfl,
    (delete_idempotent_absence ['b'] _ ⟨_, rfl⟩).2.2 _ rfl rfl⟩

/-- C9 counterexample: at the concrete no-tag-set remote response, the
object variant propagates the error instead of returning an empty tag set
with no error, while the bucket variant does return the empty tag set. -/
theorem object_list_tags_no_tag_set_counterexample :
    S3ObjectListTags (.error AwsErrCode.noSuchTagSet) ≠
        Except.ok ([] : KeyValueTags) ∧
      S3ObjectListTags (.error AwsErrCode.noSuchTagSet) =
        .error AwsErrCode.noSuchTagSet ∧
      S3BucketListTags (.error AwsErrCode.noSuchTagSet) =
        Except.ok ([] : KeyValueTags) := by
  refine ⟨?_, rfl, rfl⟩
  decide

/-- C9 amended: the bucket list-tags operation treats the no-tag-set
condition as an empty tag set with no error and propagates any other
error; the object list-tags operation propagates every error, including
the no-tag-set condition, and both return the remote tag set on
success. -/
theorem list_tags_no_tag_set_handling :
    S3BucketListTags (.error AwsErrCode.noSuchTagSet) =
        Except.ok ([] : KeyValueTags) ∧
      (∀ e : AwsErrCode, S3ObjectListTags (.error e) = .error e) ∧
      (∀ msg, S3BucketListTags (.error (.other msg)) = .error (.other msg)) ∧
      (∀ ts : KeyValueTags,
        S3BucketListTags (.ok ts) = .ok ts ∧ S3ObjectListTags (.ok ts) = .ok ts) :=
  ⟨rfl, fun _ => rfl, fun _ => rfl, fun _ => ⟨rfl, rfl⟩⟩

/-- C10: the object tag update with an empty new tag set and non-empty old
tags issues the delete-all-tags request unconditionally (its embedding
takes no remote tag listing at all); when the new tag set is non-empty it
writes the new tags with provider-managed keys stripped; and on the same
old/new input where the bucket update preserves a stored system tag, the
object update deletes everything. -/
theorem object_update_tags_unconditional_delete
    (oldTags newTags : KeyValueTags) :
    (newTags = [] → oldTags ≠ [] →
        S3ObjectUpdateTags oldTags newTags = .deleteAll) ∧
      (newTags ≠ [] →
        S3ObjectUpdateTags oldTags newTags = .put (tagsIgnoreAws newTags)) ∧
      (S3ObjectUpdateTags [("user", "a")] [] = .deleteAll ∧
        S3BucketUpdateTags [("user", "a")] []
            (.ok [("aws:sys", "x"), ("user", "a")]) =
          .ok (.put [("aws:sys", "x")])) := by
  refine ⟨?_, ?_, by decide, by decide⟩
  · intro hnew hold
    have h1 : ¬ newTags.length > 0 := by simp [hnew]
    have h2 : oldTags.length > 0 := List.length_pos.mpr hold
    simp [S3ObjectUpdateTags, h1, h2]
  · intro hnew
    have h1 : newTags.length > 0 := List.length_pos.mpr hnew
    simp [S3ObjectUpdateTags, h1]

/-- Witness for C10: for old tags containing a user tag and empty new
tags, the object update deletes all tags; for a non-empty new tag set
containing a provider-managed key, the write strips that key. -/
theorem object_update_tags_unconditional_delete_witness :
    S3ObjectUpdateTags [("old", "v")] [] = .deleteAll ∧
      S3ObjectUpdateTags [] [("aws:sys", "x"), ("k", "v")] = .put [("k", "v")] :=
  ⟨(object_update_tags_unconditional_delete [("old", "v")] []).1 rfl (by decide),
    (object_update_tags_unconditional_delete [] [("aws:sys", "x"), ("k", "v")]).2.1
      (by decide)⟩

/-- C7: the bucket tag update computes the system tags as the stored tags
minus the user-visible (AWS-ignored) ones; when the union of new user tags
and system tags is non-empty it writes that union and every system tag
survives in the written set; when that union is empty but old tags
existed it deletes all tags; when the union is empty and no old tags
existed it issues no remote write at all; and at stored tags consisting
of a system tag and a user tag with an empty new tag set, the write
preserves the system tag and drops the user tag. -/
theorem bucket_update_tags_preserves_system_tags
    (oldTags newTags allTags : KeyValueTags) :
    (newTags.length + (tagsRemoved allTags (tagsIgnoreAws allTags)).length > 0 →
        S3BucketUpdateTags oldTags newTags (.ok allTags) =
            .ok (.put (tagsMerge newTags
              (tagsRemoved allTags (tagsIgnoreAws allTags)))) ∧
          ∀ t ∈ tagsRemoved allTags (tagsIgnoreAws allTags),
            t ∈ tagsMerge newTags (tagsRemoved allTags (tagsIgnoreAws allTags))) ∧
      (newTags.length + (tagsRemoved allTags (tagsIgnoreAws allTags)).length = 0 →
        oldTags.length > 0 →
        S3BucketUpdateTags oldTags newTags (.ok allTags) = .ok .deleteAll) ∧
      (newTags.length + (tagsRemoved allTags (tagsIgnoreAws allTags)).length = 0 →
        oldTags.length = 0 →
        S3BucketUpdateTags oldTags newTags (.ok allTags) = .ok .noop) ∧
      (S3BucketUpdateTags [("user", "a")] []
          (.ok [("aws:sys", "x"), ("user", "a")]) =
        .ok (.put [("aws:sys", "x")])) := by
  refine ⟨?_, ?_, ?_, by decide⟩
  · intro hpos
    constructor
    · simp only [S3BucketUpdateTags, S3BucketListTags]
      rw [if_pos hpos]
    · intro t ht
      exact List.mem_append_right _ ht
  · intro hzero hold
    have h1 : ¬ newTags.length + (tagsRemoved allTags (tagsIgnoreAws allTags)).length > 0 := by
      omega
    have h2 : (tagsRemoved allTags (tagsIgnoreAws allTags)).length = 0 := by
      omega
    simp only [S3BucketUpdateTags, S3BucketListTags]
    rw [if_neg h1, if_pos ⟨hold, h2⟩]
  · intro hzero hold
    have h1 : ¬ newTags.length + (tagsRemoved allTags (tagsIgnoreAws allTags)).length > 0 := by
      omega
    have h2 : ¬ (oldTags.length > 0 ∧
        (tagsRemoved allTags (tagsIgnoreAws allTags)).length = 0) := by
      rintro ⟨ho, -⟩
      omega
    simp only [S3BucketUpdateTags, S3BucketListTags]
    rw [if_neg h1, if_neg h2]

/-- Witness for C7: with one stored system tag and one stored user tag,
an empty new user tag set produces a write of exactly the system tag; the
system tag is a member of the written set; with no stored tags, no new
tags, and old tags present, the update deletes all tags; with nothing
stored, nothing new and nothing old, it issues no remote write. -/
theorem bucket_update_tags_preserves_system_tags_witness :
    S3BucketUpdateTags [("user", "a")] []
          (.ok [("aws:sys", "x"), ("user", "a")]) =
        .ok (.put (tagsMerge []
          (tagsRemoved [("aws:sys", "x"), ("user", "a")]
            (tagsIgnoreAws [("aws:sys", "x"), ("user", "a")])))) ∧
      ("aws:sys", "x") ∈ tagsMerge ([] : KeyValueTags)
          (tagsRemoved [("aws:sys", "x"), ("user", "a")]
            (tagsIgnoreAws [("aws:sys", "x"), ("user", "a")])) ∧
      S3BucketUpdateTags [("old", "v")] [] (.ok []) = .ok .deleteAll ∧
      S3BucketUpdateTags [] [] (.ok []) = .ok .noop :=
  ⟨((bucket_update_tags_preserves_system_tags [("user", "a")] []
        [("aws:sys", "x"), ("user", "a")]).1 (by decide)).1,
    ((bucket_update_tags_preserves_system_tags [("user", "a")] []
        [("aws:sys", "x"), ("user", "a")]).1 (by decide)).2 _ (by decide),
    (bucket_update_tags_preserves_system_tags [("old", "v")] [] []).2.1
      (by decide) (by decide),
    (bucket_update_tags_preserves_system_tags [] [] []).2.2.1
      (by decide) (by decide)⟩

/-! ## Stabilization loop lemmas -/

/-- The successful outputs of a remote read sequence, in order. -/
def okValues (reads : List (Except AwsErrCode GetOutput)) : List GetOutput :=
  reads.filterMap (fun r =>
    match r with
    | .ok v => some v
    | .error _ => none)

/-- A list contains two equal adjacent elements. -/
def hasAdjDup {α : Type _} (l : List α) : Prop :=
  ∃ l1 a l2, l = l1 ++ a :: a :: l2

/-- Adjacent duplicates survive consing an element in front. -/
lemma hasAdjDup_cons {α : Type _} (x : α) {l : List α} (h : hasAdjDup l) :
    hasAdjDup (x :: l) := by
  obtain ⟨l1, a, l2, rfl⟩ := h
  exact ⟨x :: l1, a, l2, rfl⟩

/-- A list with at most one element has no adjacent duplicate. -/
lemma not_hasAdjDup_short {α : Type _} (l : List α) (h : l.length ≤ 1) :
    ¬ hasAdjDup l := by
  rintro ⟨l1, a, l2, rfl⟩
  simp at h
  omega

/-- A successful stabilization implies two equal adjacent successful
reads in the sequence extended by the previously observed output. -/
lemma stabilizeLoop_success_adjdup (isNew : Bool) (out : GetOutput) :
    ∀ (reads : List (Except AwsErrCode GetOutput)) (last : Option GetOutput),
      stabilizeLoop isNew last reads = .success out →
      hasAdjDup (last.toList ++ okValues reads) := by
  intro reads
  induction reads with
  | nil =>
    intro last h
    simp [stabilizeLoop] at h
  | cons r rest ih =>
    intro last h
    cases r with
    | error e =>
      rw [stabilizeLoop] at h
      split at h
      · have := ih last h
        simpa [okValues] using this
      · exact absurd h (by simp)
    | ok v =>
      cases last with
      | none =>
        simp only [stabilizeLoop] at h
        have := ih (some v) h
        simpa [okValues] using this
      | some l =>
        simp only [stabilizeLoop] at h
        by_cases hl : l = v
        · subst hl
          exact ⟨[], l, okValues rest, by simp [okValues]⟩
        · rw [if_neg hl] at h
          have := ih (some v) h
          simp only [Option.toList_some, List.singleton_append] at this ⊢
          exact hasAdjDup_cons l (by simpa [okValues] using this)

/-- C1: the stabilization read loop reports success only after observing
two consecutive deeply equal reads: a successful loop implies two equal
adjacent successful reads in the sequence, a single read never succeeds,
and for a read sequence R1 ≠ R2 = R3 the loop succeeds exactly at R3 and
not on the two-read truncation. -/
theorem read_stabilization_two_consecutive_equal (isNew : Bool)
    (reads : List (Except AwsErrCode GetOutput)) (out : GetOutput) :
    (stabilizeLoop isNew none reads = .success out → hasAdjDup (okValues reads)) ∧
      (∀ r, stabilizeLoop isNew none [r] ≠ RetryOutcome.success out) ∧
      (∀ r1 r2 : GetOutput, r1 ≠ r2 →
        stabilizeLoop isNew none [.ok r1, .ok r2, .ok r2] = .success r2 ∧
          stabilizeLoop isNew none [.ok r1, .ok r2] ≠ RetryOutcome.success out) := by
  refine ⟨?_, ?_, ?_⟩
  · intro h
    simpa using stabilizeLoop_success_adjdup isNew out reads none h
  · intro r h
    have hd := stabilizeLoop_success_adjdup isNew out [r] none h
    refine not_hasAdjDup_short _ ?_ (by simpa using hd)
    cases r <;> simp [okValues]
  · intro r1 r2 h12
    constructor
    · simp [stabilizeLoop, if_neg h12]
    · intro h
      simp [stabilizeLoop, if_neg h12] at h

/-- Witness for C1 at the concrete read sequence
[], [sampleRule], [sampleRule]: the loop succeeds only at the third read,
yields two adjacent equal reads, and never succeeds on a single read. -/
theorem read_stabilization_two_consecutive_equal_witness :
    stabilizeLoop true none
        [.ok [], .ok [sampleRule], .ok [sampleRule]] = .success [sampleRule] ∧
      stabilizeLoop true none [.ok [], .ok [sampleRule]] ≠
        RetryOutcome.success [sampleRule] ∧
      stabilizeLoop true none [.ok []] ≠ RetryOutcome.success [sampleRule] ∧
      hasAdjDup (okValues [.ok [], .ok [sampleRule], .ok [sampleRule]]) :=
  ⟨((read_stabilization_two_consecutive_equal true [] [sampleRule]).2.2 [] [sampleRule]
      (by decide)).1,
    ((read_stabilization_two_consecutive_equal true [] [sampleRule]).2.2 [] [sampleRule]
      (by decide)).2,
    (read_stabilization_two_consecutive_equal true [] [sampleRule]).2.1 (.ok []),
    (read_stabilization_two_consecutive_equal true
        [.ok [], .ok [sampleRule], .ok [sampleRule]] [sampleRule]).1 (by decide)⟩

/-- C2: in the Read operation a not-found-class error is retried inside
the stabilization loop when the resource is new; when the resource is not
new it is non-retryable and the operation clears the tracked identity,
returning success with no error. -/
theorem read_not_found_handling (e : AwsErrCode)
    (he : isNotFoundCode e = true) :
    (∀ (last : Option GetOutput) rest,
        stabilizeLoop true last (.error e :: rest) = stabilizeLoop true last rest) ∧
      (∀ (last : Option GetOutput) rest,
        stabilizeLoop false last (.error e :: rest) = .nonRetryable e) ∧
      readPostProcess false (.error e) = .removed ∧
      (∀ reads finalRead,
        stabilizeLoop false none reads = .nonRetryable e →
        resourceBucketLifecycleConfigurationRead false reads finalRead = .removed) := by
  refine ⟨?_, ?_, ?_, ?_⟩
  · intro last rest
    simp [stabilizeLoop, he]
  · intro last rest
    simp [stabilizeLoop, he]
  · simp [readPostProcess, he]
  · intro reads finalRead h
    simp [resourceBucketLifecycleConfigurationRead, h, readPostProcess, he]

/-- Witness for C2 at the no-such-bucket error: a new resource retries it
inside the loop, a pre-existing resource clears its identity and reports
no error. -/
theorem read_not_found_handling_witness :
    stabilizeLoop true none [.error .noSuchBucket, .ok [], .ok []] =
        stabilizeLoop true none [.ok [], .ok []] ∧
      stabilizeLoop false none [.error .noSuchBucket] =
        .nonRetryable .noSuchBucket ∧
      resourceBucketLifecycleConfigurationRead false [.error .noSuchBucket]
          (.ok []) = .removed :=
  ⟨(read_not_found_handling .noSuchBucket rfl).1 none [.ok [], .ok []],
    (read_not_found_handling .noSuchBucket rfl).2.1 none [],
    (read_not_found_handling .noSuchBucket rfl).2.2.2 [.error .noSuchBucket]
      (.ok []) ((read_not_found_handling .noSuchBucket rfl).2.1 none [])⟩

/-- C3: when the stabilization loop exhausts its budget without two
consecutive equal reads, the Read operation proceeds with one final
unconditional read: the result is exactly the post-processing of that
final read, a successful final read makes the operation succeed with its
output, and an error is surfaced only when the final read itself
failed. -/
theorem read_timeout_final_read (isNew : Bool)
    (reads : List (Except AwsErrCode GetOutput))
    (finalRead : Except AwsErrCode GetOutput)
    (h : stabilizeLoop isNew none reads = .timedOut) :
    resourceBucketLifecycleConfigurationRead isNew reads finalRead =
        readPostProcess isNew finalRead ∧
      (∀ out, finalRead = .ok out →
        resourceBucketLifecycleConfigurationRead isNew reads finalRead = .ok out) ∧
      (∀ e, resourceBucketLifecycleConfigurationRead isNew reads finalRead =
          .error e → finalRead = .error e) := by
  refine ⟨?_, ?_, ?_⟩
  · simp [resourceBucketLifecycleConfigurationRead, h]
  · intro out hf
    subst hf
    simp [resourceBucketLifecycleConfigurationRead, h, readPostProcess]
  · intro e hr
    have h1 : resourceBucketLifecycleConfigurationRead isNew reads finalRead =
        readPostProcess isNew finalRead := by
      simp [resourceBucketLifecycleConfigurationRead, h]
    rw [h1] at hr
    cases finalRead with
    | ok out => simp [readPostProcess] at hr
    | error e' =>
      simp only [readPostProcess] at hr
      by_cases hc : (!isNew && isNotFoundCode e') = true
      · rw [if_pos hc] at hr
        exact absurd hr (by simp)
      · rw [if_neg hc] at hr
        injection hr with h2
        rw [h2]

/-- Witness for C3: a sequence of two unequal reads times out, and with a
successful final read the operation succeeds with the final output
instead of failing for instability. -/
theorem read_timeout_final_read_witness :
    resourceBucketLifecycleConfigurationRead true [.ok [], .ok [sampleRule]]
          (.ok [sampleRule]) = .ok [sampleRule] ∧
      resourceBucketLifecycleConfigurationRead true [.ok [], .ok [sampleRule]]
          (.ok [sampleRule]) =
        readPostProcess true (.ok [sampleRule]) :=
  ⟨(read_timeout_final_read true [.ok [], .ok [sampleRule]] (.ok [sampleRule])
        (by decide)).2.1 [sampleRule] rfl,
    (read_timeout_final_read true [.ok [], .ok [sampleRule]] (.ok [sampleRule])
        (by decide)).1⟩

/-! ## Validation error lemmas -/

/-- Every expiration validation error names the rule it was raised for. -/
lemma expandExpiration_error_ruleId (ruleId : String)
    (e? : Option LifecycleExpiration) (e : LifecycleValidationErr)
    (h : expandExpiration ruleId e? = .error e) : e.ruleId = ruleId := by
  rcases e? with _ | ex
  · simp [expandExpiration] at h
  · simp only [expandExpiration] at h
    split at h
    · injection h with h1
      rw [← h1]
    · simp at h

/-- Every filter validation error names the rule it was raised for. -/
lemma expandFilter_error_ruleId (ruleId topPfx : String)
    (filter : Option LifecycleRuleFilter) (e : LifecycleValidationErr)
    (h : expandFilter ruleId topPfx filter = .error e) : e.ruleId = ruleId := by
  rcases filter with _ | f
  · simp [expandFilter] at h
  · simp only [expandFilter] at h
    repeat' split at h
    all_goals
      first
        | (injection h with h1; rw [← h1])
        | injection h

/-- Every per-rule validation error names the rule it was raised for. -/
lemma expandRule_error_ruleId (r : LifecycleRule) (e : LifecycleValidationErr)
    (h : expandRule r = .error e) : e.ruleId = r.id := by
  unfold expandRule at h
  split at h
  · rename_i e' heq
    injection h with h1
    rw [← h1]
    exact expandExpiration_error_ruleId _ _ _ heq
  · split at h
    · rename_i heq
      injection h with h1
      rw [← h1]
      exact expandFilter_error_ruleId _ _ _ _ heq
    · simp at h

/-- A failing expansion of a rule list fails on a member rule. -/
lemma ExpandLifecycleRules_error_mem (rules : List LifecycleRule)
    (e : LifecycleValidationErr) (h : ExpandLifecycleRules rules = .error e) :
    ∃ r ∈ rules, expandRule r = .error e := by
  induction rules with
  | nil => simp [ExpandLifecycleRules] at h
  | cons r rest ih =>
    simp only [ExpandLifecycleRules] at h
    split at h
    · rename_i e' heq
      injection h with h1
      exact ⟨r, List.mem_cons_self r rest, by rw [heq, h1]⟩
    · rename_i a heq
      split at h
      · rename_i e' heq2
        injection h with h1
        obtain ⟨r', hm, hr'⟩ := ih (by rw [heq2, h1])
        exact ⟨r', List.mem_cons_of_mem r hm, hr'⟩
      · simp at h

/-- C8: when expanding the rule list fails, Create and Update return the
validation error without issuing any remote request (the request trace is
empty, so no put-lifecycle-configuration call is made), and the error
names an offending member rule by its id. -/
theorem create_update_validation_before_remote (rules : List LifecycleRule)
    (e : LifecycleValidationErr) (h : ExpandLifecycleRules rules = .error e) :
    (∀ putResult,
        resourceBucketLifecycleConfigurationCreate rules putResult =
          ([], .error (.validation e))) ∧
      (∀ id putResult p, ParseResourceID id = .ok p →
        resourceBucketLifecycleConfigurationUpdate id rules putResult =
          ([], .error (.validation e))) ∧
      (∃ r ∈ rules, expandRule r = .error e ∧ e.ruleId = r.id) := by
  refine ⟨?_, ?_, ?_⟩
  · intro putResult
    simp [resourceBucketLifecycleConfigurationCreate, h]
  · intro id putResult p hid
    simp [resourceBucketLifecycleConfigurationUpdate, hid, h]
  · obtain ⟨r, hm, hr⟩ := ExpandLifecycleRules_error_mem rules e h
    exact ⟨r, hm, hr, expandRule_error_ruleId r e hr⟩

/-- Witness for C8: a rule setting both an expiration date and expiration
days fails validation; Create and Update return the error naming that
rule with an empty request trace. -/
theorem create_update_validation_before_remote_witness :
    resourceBucketLifecycleConfigurationCreate [invalidExpirationRule] none =
        ([], .error (.validation
          ⟨"bad-rule", "expiration fields are mutually exclusive"⟩)) ∧
      resourceBucketLifecycleConfigurationUpdate ['b'] [invalidExpirationRule]
          none =
        ([], .error (.validation
          ⟨"bad-rule", "expiration fields are mutually exclusive"⟩)) ∧
      (∃ r ∈ [invalidExpirationRule],
        expandRule r = .error
            ⟨"bad-rule", "expiration fields are mutually exclusive"⟩ ∧
          (⟨"bad-rule", "expiration fields are mutually exclusive"⟩ :
              LifecycleValidationErr).ruleId = r.id) :=
  ⟨(create_update_validation_before_remote [invalidExpirationRule] _
        (by decide)).1 none,
    (create_update_validation_before_remote [invalidExpirationRule] _
        (by decide)).2.1 ['b'] none (['b'], []) (by decide),
    (create_update_validation_before_remote [invalidExpirationRule] _
        (by decide)).2.2⟩

/-! ## Flatten after expand -/

/-- A validated expiration block passes through expansion unchanged. -/
lemma expandExpiration_ok (ruleId : String)
    (e? exp : Option LifecycleExpiration)
    (h : expandExpiration ruleId e? = .ok exp) : exp = e? := by
  rcases e? with _ | e
  · simp only [expandExpiration] at h
    injection h with h1
    exact h1.symm
  · simp only [expandExpiration] at h
    split at h
    · injection h
    · injection h with h1
      exact h1.symm

/-- The empty string is a prefix of every string. -/
lemma strHasPfx_empty (s : String) : strHasPfx "" s = true := by
  rw [strHasPfx, show "".data = [] from rfl]
  exact List.isPrefixOf_nil_left

/-- An expanded filter, once flattened back onto the user shape, applies
to exactly the same objects as the original filter together with the
deprecated top-level prefix. -/
lemma expandFilter_ok_denot (ruleId topPfx : String)
    (filter : Option LifecycleRuleFilter) (fl : APIFilter)
    (h : expandFilter ruleId topPfx filter = .ok fl) (o : S3Object) :
    filterAppliesTo "" (some (flattenFilter fl)) o =
      filterAppliesTo topPfx filter o := by
  rcases filter with _ | f
  · simp only [expandFilter] at h
    injection h with h1
    subst h1
    simp [flattenFilter, filterAppliesTo]
  · rcases f with ⟨aO, gO, lO, fpfx, tO⟩
    simp only [expandFilter] at h
    split at h
    · injection h
    · rename_i htop
      have htop' : topPfx = "" := not_ne_iff.mp htop
      subst htop'
      split at h
      · -- and-operator branch
        rename_i a
        split at h
        · injection h
        · rename_i hfp
          have hfp' : fpfx = "" := not_ne_iff.mp hfp
          subst hfp'
          split at h
          · injection h
          · rename_i hcount
            injection h with h1
            subst h1
            by_cases hpa : a.pfx = "" ∧ a.tags = []
            · obtain ⟨hp1, hp2⟩ := hpa
              have hboth : a.objectSizeGreaterThan ≠ 0 ∧
                  a.objectSizeLessThan ≠ 0 := by
                rw [andSetCount, hp1, hp2] at hcount
                by_cases h1 : a.objectSizeGreaterThan = 0 <;>
                  by_cases h2 : a.objectSizeLessThan = 0 <;>
                    simp [h1, h2] at hcount
                exact ⟨h1, h2⟩
              obtain ⟨hgt, hlt⟩ := hboth
              have hgt2 : (a.objectSizeGreaterThan == 0) = false :=
                beq_eq_false_iff_ne.mpr hgt
              have hlt2 : (a.objectSizeLessThan == 0) = false :=
                beq_eq_false_iff_ne.mpr hlt
              simp [flattenFilter, hp1, hp2, if_neg hgt, if_neg hlt,
                filterAppliesTo, matchesAndUser, tagsSubset,
                strHasPfx_empty, hgt2, hlt2]
            · have hg : (if a.objectSizeGreaterThan = 0 then none
                  else some a.objectSizeGreaterThan).getD 0 =
                    a.objectSizeGreaterThan := by
                by_cases h0 : a.objectSizeGreaterThan = 0 <;> simp [h0]
              have hl : (if a.objectSizeLessThan = 0 then none
                  else some a.objectSizeLessThan).getD 0 =
                    a.objectSizeLessThan := by
                by_cases h0 : a.objectSizeLessThan = 0 <;> simp [h0]
              simp only [flattenFilter, if_neg hpa, filterAppliesTo, hg, hl]
      · -- single tag branch
        rename_i t
        split at h
        · injection h
        · rename_i hfp
          have hfp' : fpfx = "" := not_ne_iff.mp hfp
          subst hfp'
          injection h with h1
          subst h1
          simp [flattenFilter, filterAppliesTo]
      · -- both size bounds branch
        rename_i g l
        split at h
        · injection h
        · rename_i hfp
          have hfp' : fpfx = "" := not_ne_iff.mp hfp
          subst hfp'
          split at h
          · injection h with h1
            subst h1
            simp [flattenFilter, filterAppliesTo, matchesAndUser]
          · injection h
      · -- lower size bound branch
        rename_i g
        split at h
        · injection h
        · rename_i hfp
          have hfp' : fpfx = "" := not_ne_iff.mp hfp
          subst hfp'
          split at h
          · injection h with h1
            subst h1
            simp [flattenFilter, filterAppliesTo]
          · injection h
      · -- upper size bound branch
        rename_i l
        split at h
        · injection h
        · rename_i hfp
          have hfp' : fpfx = "" := not_ne_iff.mp hfp
          subst hfp'
          split at h
          · injection h with h1
            subst h1
            simp [flattenFilter, filterAppliesTo]
          · injection h
      · -- empty filter branch
        injection h with h1
        subst h1
        simp [flattenFilter, filterAppliesTo]
      · -- conflicting predicates branch
        injection h

/-- A rule that expands successfully is semantically preserved by
flattening the expanded API rule. -/
lemma expandRule_ok_semEq (r : LifecycleRule) (a : APIRule)
    (h : expandRule r = .ok a) : SemEqRule (flattenRule a) r := by
  unfold expandRule at h
  split at h
  · injection h
  · rename_i exp heq
    split at h
    · injection h
    · rename_i fl heq2
      injection h with h1
      subst h1
      refine ⟨rfl, rfl, expandExpiration_ok _ _ _ heq, rfl, rfl, rfl, rfl, ?_⟩
      intro o
      exact expandFilter_ok_denot _ _ _ _ heq2 o

/-- C4: for every user rule list that expands successfully, flattening
the expanded API rule list reproduces all semantic content of the
original rules: ids, statuses, expiration choices, transition sets and
the remaining blocks are equal, and each filter (even when a prefix moves
between the deprecated top-level field and the filter block) applies to
exactly the same objects. -/
theorem flatten_expand_preserves_semantics (R : List LifecycleRule)
    (A : List APIRule) (h : ExpandLifecycleRules R = .ok A) :
    List.Forall₂ SemEqRule (FlattenLifecycleRules A) R := by
  induction R generalizing A with
  | nil =>
    simp only [ExpandLifecycleRules] at h
    injection h with h1
    subst h1
    simp [FlattenLifecycleRules]
  | cons r rest ih =>
    simp only [ExpandLifecycleRules] at h
    split at h
    · injection h
    · rename_i a heq
      split at h
      · injection h
      · rename_i as_ heq2
        injection h with h1
        subst h1
        exact List.Forall₂.cons (expandRule_ok_semEq r a heq) (ih as_ heq2)

/-- Witness for C4: a two-rule list (a deprecated-prefix rule and a
tag-filter rule with transitions) expands to the expected API rules and
its flattening is semantically equivalent to the original list. -/
theorem flatten_expand_preserves_semantics_witness :
    ExpandLifecycleRules [userRulePfx, userRuleTag] =
        .ok [apiRulePfx, apiRuleTag] ∧
      List.Forall₂ SemEqRule (FlattenLifecycleRules [apiRulePfx, apiRuleTag])
        [userRulePfx, userRuleTag] :=
  ⟨by decide,
    flatten_expand_preserves_semantics [userRulePfx, userRuleTag]
      [apiRulePfx, apiRuleTag] (by decide)⟩

end S3Lifecycle
